import Mathlib

/-!
Shallow embedding of the latextools repository (src/latextools/file.py and
src/latextools/project.py).  Python strings are modelled as `List Char`,
Python byte strings as `List Nat`, and the filesystem objects
(pyfilesystem2 MemoryFS / OSFS directories) as association lists from path
strings to file contents.  The external pdflatex process is modelled by an
oracle `Nat → LaunchOutcome` giving the outcome of the n-th invocation in
a batch; raised Python exceptions are modelled with `Except`.
-/

deriving instance DecidableEq for Except

namespace Latextools

/-! ### Strings and filesystem contents -/

/-- Contents of one file in a (virtual) filesystem: either text (written
with `writetext` / text streams) or raw bytes (written with `writebytes`). -/
inductive Content
  | text (t : List Char)
  | bytes (b : List Nat)
deriving DecidableEq

/-- Bytes of a content value, as read back by `readbytes` (text is encoded
codepoint-wise in this model). -/
def Content.toBytes : Content → List Nat
  | .text t => t.map Char.toNat
  | .bytes b => b

/-- A virtual filesystem (pyfilesystem2 `FS` object): an association list
from path strings to contents. -/
abbrev FS := List (List Char × Content)

/-- Write one file at a path, overwriting any existing entry at that path
(last-write-wins, as in MemoryFS). -/
def fsWrite : FS → List Char → Content → FS
  | [], p, c => [(p, c)]
  | (q, d) :: rest, p, c =>
    if q = p then (p, c) :: rest else (q, d) :: fsWrite rest p c

/-- Look up the content stored at a path. -/
def fsLookup : FS → List Char → Option Content
  | [], _ => none
  | (q, d) :: rest, p => if q = p then some d else fsLookup rest p

/-- Model of `fs.exists(path)`. -/
def fsExists (s : FS) (p : List Char) : Bool :=
  (fsLookup s p).isSome

/-- Model of `fs.readbytes(path)` (the pipeline only calls it on paths that
exist; an absent path yields `[]` here). -/
def readbytes (s : FS) (p : List Char) : List Nat :=
  match fsLookup s p with
  | some c => c.toBytes
  | none => []

/-- Write a list of files into a filesystem, in order (used for the
recursive directory copy `fs.copy.copy_dir` and for the files an external
pdflatex invocation leaves in the working directory). -/
def writeAll (s : FS) (files : List (List Char × Content)) : FS :=
  files.foldl (fun acc pc => fsWrite acc pc.1 pc.2) s

/-- Model of `fs.copy.copy_file(src_fs, p, dst_fs, p)`: copy the content at
`p` from `src` into `dst`. -/
def copy_file_op (src : FS) (dst : FS) (p : List Char) : FS :=
  match fsLookup src p with
  | some c => fsWrite dst p c
  | none => dst

/-- Model of `fs.path.join(a, b)`. -/
def pathJoin (a b : List Char) : List Char :=
  a ++ '/' :: b

/-! ### file.py: the file abstraction -/

/-- Python errors raised by the file/project constructors in this model:
`typeError` is `TypeError` (the exactly-one-of argument contract);
`readError` stands for the error raised when `open()` on an external
filename fails (file missing, or `UnicodeDecodeError` when a text-mode
read cannot decode the bytes). -/
inductive PyError
  | typeError
  | readError
deriving DecidableEq

/-- The OS filesystem seen by `open(fname, mode)` in the constructors:
`readBytes f` is the result of `open(f, "rb").read()` and `readText f` the
result of `open(f, "r").read()`; `none` models a raised error (missing
file, or undecodable bytes for the text-mode read). -/
structure OsFs where
  readBytes : List Char → Option (List Nat)
  readText : List Char → Option (List Char)

/-- A constructed `BinaryFile` (file.py lines 48-62): path plus raw data. -/
structure BinaryFile where
  path : List Char
  data : List Nat
deriving DecidableEq

/-- `BinaryFile.is_text` (file.py lines 58-59). -/
def BinaryFile.is_text (_f : BinaryFile) : Bool := false

/-- `BinaryFile.get_content` (file.py lines 61-62). -/
def BinaryFile.get_content (f : BinaryFile) : List Nat := f.data

/-- `BinaryFile.__init__` (file.py lines 49-56): requires exactly one of
`fname`, `data`; when only `fname` is given the data is the binary read of
that external file. -/
def binaryFile_init (os : OsFs) (path : List Char)
    (data : Option (List Nat)) (fname : Option (List Char)) :
    Except PyError BinaryFile :=
  if (if fname.isSome then 1 else 0) + (if data.isSome then 1 else 0) ≠ 1 then
    .error .typeError
  else
    match data with
    | some d => .ok ⟨path, d⟩
    | none =>
      match fname with
      | some f =>
        match os.readBytes f with
        | some d => .ok ⟨path, d⟩
        | none => .error .readError
      -- unreachable: the count check guarantees one of the two is present
      | none => .error .typeError

/-- A constructed `PlainTextFile` (file.py lines 65-79): path plus text. -/
structure PlainTextFile where
  path : List Char
  text : List Char
deriving DecidableEq

/-- `PlainTextFile.is_text` (file.py lines 75-76). -/
def PlainTextFile.is_text (_f : PlainTextFile) : Bool := true

/-- `PlainTextFile.get_content` (file.py lines 78-79). -/
def PlainTextFile.get_content (f : PlainTextFile) : List Char := f.text

/-- `PlainTextFile.__init__` (file.py lines 66-73): requires exactly one of
`fname`, `text`; when only `fname` is given the text is the text-mode read
of that external file. -/
def plainTextFile_init (os : OsFs) (path : List Char)
    (text : Option (List Char)) (fname : Option (List Char)) :
    Except PyError PlainTextFile :=
  if (if fname.isSome then 1 else 0) + (if text.isSome then 1 else 0) ≠ 1 then
    .error .typeError
  else
    match text with
    | some t => .ok ⟨path, t⟩
    | none =>
      match fname with
      | some f =>
        match os.readText f with
        | some t => .ok ⟨path, t⟩
        | none => .error .readError
      -- unreachable: the count check guarantees one of the two is present
      | none => .error .typeError

/-- A generated-LaTeX file (`LatexFileAbc`, file.py lines 82-89); its
`get_content` is abstract in the source, so it is modelled as the `content`
field holding the current value `get_content()` returns. -/
structure LatexFileAbc where
  path : List Char
  content : List Char

/-- `LatexFileAbc`'s inherited abstract `get_content` (here: the stored
current value). -/
def LatexFileAbc.get_content (f : LatexFileAbc) : List Char := f.content

/-- `LatexFileAbc.is_text` (file.py lines 88-89). -/
def LatexFileAbc.is_text (_f : LatexFileAbc) : Bool := true

/-- `LatexFileAbc.write_content` (file.py lines 83-86): the sink `f` is
modelled as the text written so far, each `f.write(s)` appends `s`.  The
source performs two writes: first the banner literal
`'% This file was automatically generated by python latextools.' '\n\n'`
(adjacent string literals, concatenated by Python), then `get_content()`. -/
def LatexFileAbc.write_content (f : LatexFileAbc) (sink : List Char) : List Char :=
  let sink1 := sink ++
    String.toList "% This file was automatically generated by python latextools.\n\n"
  sink1 ++ f.get_content

/-! ### project.py: output filename derivation -/

/-- Helper for Python `str.split('.')`: returns the first component and
the list of remaining components (so the full split result is
`p.1 :: p.2`, which is never empty, matching `str.split`). -/
def splitOnDotCore : List Char → List Char × List (List Char)
  | [] => ([], [])
  | c :: rest =>
    let p := splitOnDotCore rest
    if c = '.' then ([], p.1 :: p.2) else (c :: p.1, p.2)

/-- Python `fname.split('.')` (project.py line 52). -/
def splitOnDot (l : List Char) : List (List Char) :=
  (splitOnDotCore l).1 :: (splitOnDotCore l).2

/-- Python `'.'.join(comps)` (project.py line 57). -/
def joinDot : List (List Char) → List Char
  | [] => []
  | [w] => w
  | w :: x :: ws => w ++ '.' :: joinDot (x :: ws)

/-- `LatexProject._get_output_fname` (project.py lines 50-57): split the
filename on `'.'`; if there is at most one component append the extension,
otherwise replace the last component with it; re-join with `'.'`. -/
def get_output_fname (fname : List Char) (out_extension : List Char) : List Char :=
  let comps := splitOnDot fname
  if comps.length ≤ 1 then joinDot (comps ++ [out_extension])
  else joinDot (comps.dropLast ++ [out_extension])

/-! ### project.py: the compile pipeline -/

/-- The outcome of attempting to launch one external pdflatex process:
either the executable cannot be found (`FileNotFoundError` from `Popen`),
or it ran to completion with the given exit code, captured stdout/stderr
(modelled as already-decoded text), and the files it left in the working
directory. -/
inductive LaunchOutcome
  | notFound
  | ran (returncode : Int) (stdout : List Char) (stderr : List Char)
        (newFiles : List (List Char × Content))

/-- A raised `LatexError` (project.py line 9), carrying its message. -/
structure LatexError where
  msg : List Char
deriving DecidableEq

/-- The message of the `LatexError` raised for a non-zero exit
(project.py lines 123-130): start from the empty message, append the
decoded stdout if non-empty, then the decoded stderr if non-empty. -/
def latex_error_msg (stdout stderr : List Char) : List Char :=
  let msg : List Char := []
  let msg := if stdout ≠ [] then msg ++ stdout else msg
  let msg := if stderr ≠ [] then msg ++ stderr else msg
  msg

/-- The message of the `LatexError` raised when the executable is missing
(project.py line 121). -/
def notFoundMsg : List Char :=
  String.toList "Latex compiler pdflatex not found."

/-- The argument vector passed to `subprocess.Popen` (project.py line 116):
the source passes the literal list `['pdflatex', 'main.tex']` and does not
use `fpath` in it. -/
def pdflatex_argv (fpath : List Char) : List (List Char) :=
  [String.toList "pdflatex", String.toList "main.tex"]

/-- One recorded invocation of the external compiler: the argv handed to
`Popen` and the working directory it ran in. -/
structure Invocation where
  args : List (List Char)
  cwd : List Char
deriving DecidableEq

/-- `LatexProject.run_pdflatex` (project.py lines 114-130), given the
launch outcome of this invocation: records the invocation, and either
raises a `LatexError` (compiler missing, or non-zero exit with the
combined output as message) or returns the files the process produced. -/
def run_pdflatex (o : LaunchOutcome) (fpath : List Char) (cwd : List Char) :
    Invocation × Except LatexError (List (List Char × Content)) :=
  (⟨pdflatex_argv fpath, cwd⟩,
    match o with
    | .notFound => .error ⟨notFoundMsg⟩
    | .ran rc out err files =>
      if rc ≠ 0 then .error ⟨latex_error_msg out err⟩ else .ok files)

/-- Whether a launch outcome is a successful run with exit code zero. -/
def isZeroExit : LaunchOutcome → Bool
  | .notFound => false
  | .ran rc _ _ _ => decide (rc = 0)

/-- Per-entry result of `compile_pdf_batch` (project.py lines 80-87):
the resolved output filename under `return_path=True`, a `Pdf` artifact
(data plus the pass-through `pdf_args`, of an opaque type `A`) under
`return_path=False`, or `None` when the expected output is absent. -/
inductive CResult (A : Type)
  | outPath (p : List Char)
  | artifact (data : List Nat) (args : A)
  | noOutput
deriving DecidableEq

/-- The mutable state the pipeline touches: the project store `proj_fs`,
the staging/working directory `tmp`, and the destination store `dst` used
by `save_pdf_batch`. -/
structure World where
  proj : FS
  tmp : FS
  dst : FS
deriving DecidableEq

/-- Result of one batch compile: the final state, the returned list or the
raised `LatexError`, and the trace of compiler invocations attempted. -/
structure BatchOut (A : Type) where
  w : World
  res : Except LatexError (List (CResult A))
  invs : List Invocation

/-- The per-entry result computation of `compile_pdf_batch` (project.py
lines 79-87) after a successful invocation, given the working directory
contents `tmp2`: derive the expected output filename; if it exists record
the path (`return_path=True`) or a `Pdf` artifact wrapping its bytes plus
the pass-through `pdf_args` (`return_path=False`); if it is absent record
`None`. -/
def entry_result {A : Type} (return_path : Bool) (pdf_args : A)
    (tmp2 : FS) (fname : List Char) : CResult A :=
  let out_fname := get_output_fname fname (String.toList "pdf")
  if fsExists tmp2 out_fname then
    if return_path then .outPath out_fname
    else .artifact (readbytes tmp2 out_fname) pdf_args
  else .noOutput

/-- The per-entry loop of `compile_pdf_batch` (project.py lines 76-87),
already past the staging step: `C i` is the launch outcome of the i-th
invocation of the whole batch.  Each step joins the entry name onto the
working directory, runs the compiler, on success merges the files the
process produced into the working directory, derives the expected output
name, and records the path / artifact / `None`; a raised `LatexError`
aborts the loop with no result list. -/
def batch_loop {A : Type} (C : Nat → LaunchOutcome) (tmp_dir : List Char)
    (return_path : Bool) (pdf_args : A) (i : Nat) (w : World) :
    List (List Char) → BatchOut A
  | [] => ⟨w, .ok [], []⟩
  | fname :: rest =>
    let fpath := pathJoin tmp_dir fname
    let ir := run_pdflatex (C i) fpath tmp_dir
    match ir.2 with
    | .error e => ⟨w, .error e, [ir.1]⟩
    | .ok files =>
      let w2 : World := { w with tmp := writeAll w.tmp files }
      let res : CResult A := entry_result return_path pdf_args w2.tmp fname
      let rest_out := batch_loop C tmp_dir return_path pdf_args (i + 1) w2 rest
      ⟨rest_out.w, rest_out.res.map (fun l => res :: l), ir.1 :: rest_out.invs⟩

/-- `LatexProject.compile_pdf_batch` (project.py lines 65-88) with a
concrete working directory: stage the whole project store into the working
directory (`write_src`, project.py lines 46-48, a recursive copy of
`proj_fs` into `tmp_dir`), then run the per-entry loop. -/
def compile_pdf_batch {A : Type} (C : Nat → LaunchOutcome) (tmp_dir : List Char)
    (return_path : Bool) (pdf_args : A) (w : World)
    (fname_list : List (List Char)) : BatchOut A :=
  let w1 : World := { w with tmp := writeAll w.tmp w.proj }
  batch_loop C tmp_dir return_path pdf_args 0 w1 fname_list

/-- Result of `compile_pdf`: the single value, a raised `LatexError`, or a
raised `IndexError` should the indexing `[0]` be applied to an empty
list. -/
inductive OneOut (A : Type)
  | ok (r : CResult A)
  | err (e : LatexError)
  | indexErr
deriving DecidableEq

/-- `LatexProject.compile_pdf` (project.py lines 59-63): delegate to
`compile_pdf_batch` with the singleton batch `[fname]` and index the
returned list at 0 (`[...]  [0]` raises `IndexError` on an empty list,
and a raised `LatexError` propagates before the indexing happens). -/
def compile_pdf {A : Type} (C : Nat → LaunchOutcome) (tmp_dir : List Char)
    (return_path : Bool) (pdf_args : A) (w : World) (fname : List Char) :
    World × OneOut A × List Invocation :=
  let b := compile_pdf_batch C tmp_dir return_path pdf_args w [fname]
  (b.w,
    (match b.res with
     | .error e => .err e
     | .ok [] => .indexErr
     | .ok (r :: _) => .ok r),
    b.invs)

/-- Errors escaping `save_pdf_batch`: a propagated `LatexError` from the
compile phase, or the `AttributeError`/`TypeError` raised inside the copy
loop when `fs.path.dirname` is applied to a `None` entry of the output
list. -/
inductive SaveErr
  | latex (e : LatexError)
  | noneType
deriving DecidableEq

/-- The copy loop of `save_pdf_batch` (project.py lines 110-112): for each
entry of the output list, make the destination directory and copy the file
from the working directory to the destination at the same path.  An entry
that is `None` (`CResult.noOutput`) is passed to `fs.path.dirname`, which
calls a string method on `None` and raises — modelled as `.error
.noneType`.  (An artifact entry cannot occur here since the compile phase
is invoked with `return_path=True`; it would likewise raise.) -/
def save_copy_loop : World → List (CResult Unit) → World × Except SaveErr Unit
  | w, [] => (w, .ok ())
  | w, .outPath p :: rest =>
    save_copy_loop { w with dst := copy_file_op w.tmp w.dst p } rest
  | w, .noOutput :: _ => (w, .error .noneType)
  | w, .artifact _ _ :: _ => (w, .error .noneType)

/-- Result of one `save_pdf_batch` call: final state and outcome. -/
structure SaveOut where
  w : World
  res : Except SaveErr Unit

/-- `LatexProject.save_pdf_batch` (project.py lines 95-112) with a concrete
working directory: compile the batch with `return_path=True`, then copy
each resulting output from the working directory into the destination
store; any raised error propagates. -/
def save_pdf_batch (C : Nat → LaunchOutcome) (tmp_dir : List Char)
    (w : World) (fname_list : List (List Char)) : SaveOut :=
  let b := compile_pdf_batch C tmp_dir true () w fname_list
  match b.res with
  | .error e => ⟨b.w, .error (.latex e)⟩
  | .ok outs =>
    let r := save_copy_loop b.w outs
    ⟨r.1, r.2⟩

/-- `LatexProject.add_file` (project.py lines 18-33): exactly one of
`text`, `data`, `file`, `fname` must be supplied, else `TypeError`; with
`fname` the external file is opened in text mode (`open(fname, 'r')`) and
delegated to the `file=` branch; with `file` the open stream (here: its
content) is written with `writefile`; with `data` the bytes are written
with `writebytes`; with `text` the string is written with `writetext`. -/
def add_file (os : OsFs) (proj : FS) (path : List Char)
    (text : Option (List Char)) (data : Option (List Nat))
    (file : Option Content) (fname : Option (List Char)) :
    Except PyError FS :=
  if (if text.isSome then 1 else 0) + (if data.isSome then 1 else 0)
      + (if file.isSome then 1 else 0) + (if fname.isSome then 1 else 0) ≠ 1 then
    .error .typeError
  else
    match fname with
    | some f =>
      match os.readText f with
      | some t => add_file os proj path none none (some (Content.text t)) none
      | none => .error .readError
    | none =>
      match file with
      | some c => .ok (fsWrite proj path c)
      | none =>
        match data with
        | some d => .ok (fsWrite proj path (Content.bytes d))
        | none =>
          match text with
          | some t => .ok (fsWrite proj path (Content.text t))
          -- unreachable: the count check guarantees one source is present
          | none => .error .typeError
termination_by (match fname with | some _ => 1 | none => 0)

/-! ### Properties of the output filename derivation (claim C1) -/

theorem splitOnDotCore_no_dot (l : List Char) (h : '.' ∉ l) :
    splitOnDotCore l = (l, []) := by
  induction l with
  | nil => rfl
  | cons c rest ih =>
    rw [List.mem_cons, not_or] at h
    simp [splitOnDotCore, ih h.2, Ne.symm h.1]

theorem splitOnDotCore_last (pre suf : List Char) (h : '.' ∉ suf) :
    splitOnDotCore (pre ++ '.' :: suf)
      = ((splitOnDotCore pre).1, (splitOnDotCore pre).2 ++ [suf]) := by
  induction pre with
  | nil => simp [splitOnDotCore, splitOnDotCore_no_dot suf h]
  | cons c pre ih =>
    by_cases hc : c = '.'
    · subst hc
      simp [splitOnDotCore, ih]
    · simp [splitOnDotCore, ih, hc]

theorem joinDot_append_last (w : List Char) (ws : List (List Char)) (y : List Char) :
    joinDot ((w :: ws) ++ [y]) = joinDot (w :: ws) ++ '.' :: y := by
  induction ws generalizing w with
  | nil => simp [joinDot]
  | cons x ws ih =>
    calc joinDot ((w :: x :: ws) ++ [y])
        = w ++ '.' :: joinDot ((x :: ws) ++ [y]) := by
          simp only [List.cons_append, joinDot]
          rfl
      _ = w ++ '.' :: (joinDot (x :: ws) ++ '.' :: y) := by rw [ih x]
      _ = joinDot (w :: x :: ws) ++ '.' :: y := by simp [joinDot]

theorem joinDot_splitOnDot (l : List Char) : joinDot (splitOnDot l) = l := by
  induction l with
  | nil => rfl
  | cons c rest ih =>
    simp only [splitOnDot] at ih ⊢
    by_cases hc : c = '.'
    · subst hc
      simp [splitOnDotCore, joinDot, ih]
    · have hsplit : splitOnDotCore (c :: rest)
          = (c :: (splitOnDotCore rest).1, (splitOnDotCore rest).2) := by
        simp [splitOnDotCore, hc]
      cases hp : (splitOnDotCore rest).2 with
      | nil =>
        rw [hp] at ih
        simp only [joinDot] at ih
        rw [hsplit, hp]
        simp [joinDot, ih]
      | cons x ws =>
        rw [hp] at ih
        rw [hsplit, hp]
        conv_rhs => rw [← ih]
        simp [joinDot]

theorem get_output_fname_no_dot (fname ext : List Char) (h : '.' ∉ fname) :
    get_output_fname fname ext = fname ++ '.' :: ext := by
  simp [get_output_fname, splitOnDot, splitOnDotCore_no_dot fname h, joinDot]

theorem get_output_fname_last_dot (pre suf ext : List Char) (h : '.' ∉ suf) :
    get_output_fname (pre ++ '.' :: suf) ext = pre ++ '.' :: ext := by
  have hj := joinDot_splitOnDot pre
  simp only [splitOnDot] at hj
  simp only [get_output_fname, splitOnDot, splitOnDotCore_last pre suf h]
  rw [if_neg (by simp)]
  rw [← List.cons_append, ← List.concat_eq_append, List.dropLast_concat,
      List.concat_eq_append, joinDot_append_last, hj]

/-- Claim C1: the output filename computed by `_get_output_fname` replaces
the part after the last `'.'` of the entry filename with `pdf`, or appends
`.pdf` when the name contains no `'.'`; in particular `main.tex ↦
main.pdf`, `report ↦ report.pdf`, `a.b.tex ↦ a.b.pdf`, and `x.TEX ↦
x.pdf` regardless of extension case. -/
theorem c1_get_output_fname :
    (∀ fname : List Char, '.' ∉ fname →
        get_output_fname fname (String.toList "pdf")
          = fname ++ String.toList ".pdf")
    ∧ (∀ pre suf : List Char, '.' ∉ suf →
        get_output_fname (pre ++ '.' :: suf) (String.toList "pdf")
          = pre ++ String.toList ".pdf")
    ∧ get_output_fname (String.toList "main.tex") (String.toList "pdf")
        = String.toList "main.pdf"
    ∧ get_output_fname (String.toList "report") (String.toList "pdf")
        = String.toList "report.pdf"
    ∧ get_output_fname (String.toList "a.b.tex") (String.toList "pdf")
        = String.toList "a.b.pdf"
    ∧ get_output_fname (String.toList "x.TEX") (String.toList "pdf")
        = String.toList "x.pdf" := by
  have hdot : String.toList ".pdf" = '.' :: String.toList "pdf" := by decide
  refine ⟨?_, ?_, by decide, by decide, by decide, by decide⟩
  · intro fname h
    rw [hdot]
    exact get_output_fname_no_dot fname (String.toList "pdf") h
  · intro pre suf h
    rw [hdot]
    exact get_output_fname_last_dot pre suf (String.toList "pdf") h

/-- Witness for C1: the theorem applied at the concrete inputs `report`
(no dot) and `a.b.tex` (last-dot split `a.b` / `tex`). -/
theorem c1_witness :
    get_output_fname (String.toList "report") (String.toList "pdf")
        = String.toList "report" ++ String.toList ".pdf"
    ∧ get_output_fname (String.toList "a.b" ++ '.' :: String.toList "tex")
          (String.toList "pdf")
        = String.toList "a.b" ++ String.toList ".pdf" :=
  ⟨c1_get_output_fname.1 (String.toList "report") (by decide),
   c1_get_output_fname.2.1 (String.toList "a.b") (String.toList "tex") (by decide)⟩

/-! ### Step lemmas for the compile loop -/

theorem latex_error_msg_eq (stdout stderr : List Char) :
    latex_error_msg stdout stderr = stdout ++ stderr := by
  unfold latex_error_msg
  by_cases h1 : stdout = [] <;> by_cases h2 : stderr = [] <;> simp [h1, h2]

theorem isZeroExit_eq_true {o : LaunchOutcome} (h : isZeroExit o = true) :
    ∃ out err files, o = .ran 0 out err files := by
  cases o with
  | notFound => simp [isZeroExit] at h
  | ran rc out err files =>
    simp [isZeroExit] at h
    subst h
    exact ⟨out, err, files, rfl⟩

theorem batch_loop_cons_of_error {A : Type} (C : Nat → LaunchOutcome)
    (td : List Char) (rp : Bool) (a : A) (i : Nat) (w : World)
    (fname : List Char) (rest : List (List Char)) (e : LatexError)
    (h : (run_pdflatex (C i) (pathJoin td fname) td).2 = .error e) :
    batch_loop C td rp a i w (fname :: rest)
      = ⟨w, .error e, [(run_pdflatex (C i) (pathJoin td fname) td).1]⟩ := by
  simp only [batch_loop]
  rw [h]

theorem batch_loop_cons_of_ok {A : Type} (C : Nat → LaunchOutcome)
    (td : List Char) (rp : Bool) (a : A) (i : Nat) (w : World)
    (fname : List Char) (rest : List (List Char))
    (files : List (List Char × Content))
    (h : (run_pdflatex (C i) (pathJoin td fname) td).2 = .ok files) :
    batch_loop C td rp a i w (fname :: rest)
      = ⟨(batch_loop C td rp a (i + 1)
            { w with tmp := writeAll w.tmp files } rest).w,
         (batch_loop C td rp a (i + 1)
            { w with tmp := writeAll w.tmp files } rest).res.map
           (fun l => entry_result rp a (writeAll w.tmp files) fname :: l),
         (run_pdflatex (C i) (pathJoin td fname) td).1
           :: (batch_loop C td rp a (i + 1)
                { w with tmp := writeAll w.tmp files } rest).invs⟩ := by
  simp only [batch_loop]
  rw [h]

theorem batch_loop_len {A : Type} (C : Nat → LaunchOutcome) (td : List Char)
    (rp : Bool) (a : A) :
    ∀ (fnames : List (List Char)) (i : Nat) (w : World) (l : List (CResult A)),
      (batch_loop C td rp a i w fnames).res = Except.ok l →
      l.length = fnames.length := by
  intro fnames
  induction fnames with
  | nil =>
    intro i w l h
    have h' : (Except.ok [] : Except LatexError (List (CResult A))) = .ok l := h
    cases h'
    rfl
  | cons fname rest ih =>
    intro i w l h
    cases hr : (run_pdflatex (C i) (pathJoin td fname) td).2 with
    | error e =>
      rw [batch_loop_cons_of_error C td rp a i w fname rest e hr] at h
      exact Except.noConfusion h
    | ok files =>
      rw [batch_loop_cons_of_ok C td rp a i w fname rest files hr] at h
      cases hres : (batch_loop C td rp a (i + 1)
          { w with tmp := writeAll w.tmp files } rest).res with
      | error e =>
        rw [hres] at h
        exact Except.noConfusion h
      | ok l' =>
        rw [hres] at h
        have h'' : Except.ok (entry_result rp a (writeAll w.tmp files) fname :: l')
            = (Except.ok l : Except LatexError (List (CResult A))) := h
        cases h''
        simp [ih (i + 1) _ l' hres]

theorem batch_loop_proj {A : Type} (C : Nat → LaunchOutcome) (td : List Char)
    (rp : Bool) (a : A) :
    ∀ (fnames : List (List Char)) (i : Nat) (w : World),
      (batch_loop C td rp a i w fnames).w.proj = w.proj := by
  intro fnames
  induction fnames with
  | nil => intro i w; rfl
  | cons fname rest ih =>
    intro i w
    cases hr : (run_pdflatex (C i) (pathJoin td fname) td).2 with
    | error e =>
      rw [batch_loop_cons_of_error C td rp a i w fname rest e hr]
    | ok files =>
      rw [batch_loop_cons_of_ok C td rp a i w fname rest files hr]
      exact ih (i + 1) _

theorem batch_loop_invs_fixed {A : Type} (C : Nat → LaunchOutcome)
    (td : List Char) (rp : Bool) (a : A) :
    ∀ (fnames : List (List Char)) (i : Nat) (w : World),
      (batch_loop C td rp a i w fnames).invs
        = List.replicate (batch_loop C td rp a i w fnames).invs.length
            ⟨[String.toList "pdflatex", String.toList "main.tex"], td⟩ := by
  intro fnames
  induction fnames with
  | nil => intro i w; rfl
  | cons fname rest ih =>
    intro i w
    cases hr : (run_pdflatex (C i) (pathJoin td fname) td).2 with
    | error e =>
      rw [batch_loop_cons_of_error C td rp a i w fname rest e hr]
      rfl
    | ok files =>
      rw [batch_loop_cons_of_ok C td rp a i w fname rest files hr]
      simp only [List.length_cons, List.replicate_succ]
      have h1 : (run_pdflatex (C i) (pathJoin td fname) td).1
          = (⟨[String.toList "pdflatex", String.toList "main.tex"], td⟩
              : Invocation) := rfl
      rw [h1]
      exact congrArg _ (ih (i + 1) _)

theorem save_copy_loop_proj :
    ∀ (outs : List (CResult Unit)) (w : World),
      (save_copy_loop w outs).1.proj = w.proj := by
  intro outs
  induction outs with
  | nil => intro w; rfl
  | cons o rest ih =>
    intro w
    cases o with
    | outPath p =>
      simp only [save_copy_loop]
      exact ih _
    | artifact d a => rfl
    | noOutput => rfl

theorem batch_loop_fail {A : Type} (C : Nat → LaunchOutcome) (td : List Char)
    (rp : Bool) (a : A) :
    ∀ (fnames : List (List Char)) (k i : Nat) (w : World),
      k < fnames.length →
      (∀ j, j < k → isZeroExit (C (i + j)) = true) →
      ((C (i + k) = .notFound →
          (batch_loop C td rp a i w fnames).res = .error ⟨notFoundMsg⟩
          ∧ (batch_loop C td rp a i w fnames).invs.length = k + 1)
       ∧ ∀ rc out err files, C (i + k) = .ran rc out err files → rc ≠ 0 →
          (batch_loop C td rp a i w fnames).res
              = .error ⟨latex_error_msg out err⟩
          ∧ (batch_loop C td rp a i w fnames).invs.length = k + 1) := by
  intro fnames
  induction fnames with
  | nil =>
    intro k i w hk
    exact absurd hk (by simp)
  | cons fname rest ih =>
    intro k i w hk hprev
    cases k with
    | zero =>
      constructor
      · intro hC
        simp only [Nat.add_zero] at hC
        have hr : (run_pdflatex (C i) (pathJoin td fname) td).2
            = .error ⟨notFoundMsg⟩ := by
          rw [hC]
          rfl
        rw [batch_loop_cons_of_error C td rp a i w fname rest _ hr]
        exact ⟨rfl, rfl⟩
      · intro rc out err files hC hrc
        simp only [Nat.add_zero] at hC
        have hr : (run_pdflatex (C i) (pathJoin td fname) td).2
            = .error ⟨latex_error_msg out err⟩ := by
          rw [hC]
          simp [run_pdflatex, hrc]
        rw [batch_loop_cons_of_error C td rp a i w fname rest _ hr]
        exact ⟨rfl, rfl⟩
    | succ k' =>
      have h0 : isZeroExit (C (i + 0)) = true := hprev 0 (Nat.succ_pos k')
      simp only [Nat.add_zero] at h0
      obtain ⟨out0, err0, files0, hC0⟩ := isZeroExit_eq_true h0
      have hr : (run_pdflatex (C i) (pathJoin td fname) td).2 = .ok files0 := by
        rw [hC0]
        simp [run_pdflatex]
      rw [batch_loop_cons_of_ok C td rp a i w fname rest files0 hr]
      have hk' : k' < rest.length := by
        simpa using Nat.lt_of_succ_lt_succ (by simpa using hk)
      have hprev' : ∀ j, j < k' → isZeroExit (C ((i + 1) + j)) = true := by
        intro j hj
        have hx := hprev (j + 1) (Nat.succ_lt_succ hj)
        have harith : i + (j + 1) = (i + 1) + j := by omega
        rw [harith] at hx
        exact hx
      have ihk := ih k' (i + 1) { w with tmp := writeAll w.tmp files0 } hk' hprev'
      have harith2 : (i + 1) + k' = i + (k' + 1) := by omega
      rw [harith2] at ihk
      constructor
      · intro hC
        obtain ⟨hres, hlen⟩ := ihk.1 hC
        refine ⟨?_, ?_⟩
        · simp [hres, Except.map]
        · simp [hlen]
      · intro rc out err files hC hrc
        obtain ⟨hres, hlen⟩ := ihk.2 rc out err files hC hrc
        refine ⟨?_, ?_⟩
        · simp [hres, Except.map]
        · simp [hlen]

/-! ### Claim theorems about the compile pipeline -/

/-- Claim C2: every compiler invocation of a batch passes the literal
fixed argv `['pdflatex', 'main.tex']`, with the working directory as cwd,
regardless of which entry is being compiled: the whole invocation trace is
a replication of that one fixed invocation, and `pdflatex_argv` does not
depend on the per-entry path at all (the per-entry name only enters the
working-directory path and the output lookup). -/
theorem c2_fixed_argv :
    (∀ (A : Type) (C : Nat → LaunchOutcome) (td : List Char) (rp : Bool)
        (a : A) (w : World) (fnames : List (List Char)),
      (compile_pdf_batch C td rp a w fnames).invs
        = List.replicate (compile_pdf_batch C td rp a w fnames).invs.length
            ⟨[String.toList "pdflatex", String.toList "main.tex"], td⟩)
    ∧ ∀ fpath fpath' : List Char, pdflatex_argv fpath = pdflatex_argv fpath' := by
  constructor
  · intro A C td rp a w fnames
    exact batch_loop_invs_fixed C td rp a fnames 0 _
  · intro _ _
    rfl

/-- Claim C3 evaluation: a two-entry batch whose first entry compiles with
exit status 0 but produces no output while the second entry produces
`b.pdf`: `save_pdf_batch` reaches the `None` entry in its copy loop and
raises (the modelled `fs.path.dirname(None)` failure) instead of skipping
it, and the second entry's produced output is never copied — the
destination store stays empty. -/
theorem c3_save_none_crash :
    (save_pdf_batch
        (fun i => if i = 0 then LaunchOutcome.ran 0 [] [] []
                  else LaunchOutcome.ran 0 [] []
                    [(String.toList "b.pdf", Content.bytes [37])])
        (String.toList "/t")
        ⟨[(String.toList "a.tex", Content.text (String.toList "A")),
          (String.toList "b.tex", Content.text (String.toList "B"))], [], []⟩
        [String.toList "a.tex", String.toList "b.tex"]).res
      = .error SaveErr.noneType
    ∧ (save_pdf_batch
        (fun i => if i = 0 then LaunchOutcome.ran 0 [] [] []
                  else LaunchOutcome.ran 0 [] []
                    [(String.toList "b.pdf", Content.bytes [37])])
        (String.toList "/t")
        ⟨[(String.toList "a.tex", Content.text (String.toList "A")),
          (String.toList "b.tex", Content.text (String.toList "B"))], [], []⟩
        [String.toList "a.tex", String.toList "b.tex"]).w.dst = [] := by
  constructor <;> decide

/-- Claim C4: if the first `k` invocations of a batch exit zero and the
k-th entry's invocation fails to launch, `compile_pdf_batch` raises the
dedicated compiler-not-found `LatexError`; if instead it runs but exits
non-zero, it raises a `LatexError` whose message is the decoded stdout
followed by the decoded stderr (each part omitted when empty, which equals
plain concatenation); in either case the result is the error — no partial
per-entry results — and exactly `k + 1` invocations were attempted, so no
remaining entry is compiled. -/
theorem c4_batch_errors :
    ∀ (A : Type) (C : Nat → LaunchOutcome) (td : List Char) (rp : Bool)
      (a : A) (w : World) (fnames : List (List Char)) (k : Nat),
      k < fnames.length →
      (∀ j, j < k → isZeroExit (C j) = true) →
      ((C k = .notFound →
          (compile_pdf_batch C td rp a w fnames).res = .error ⟨notFoundMsg⟩
          ∧ (compile_pdf_batch C td rp a w fnames).invs.length = k + 1)
       ∧ (∀ rc out err files, C k = .ran rc out err files → rc ≠ 0 →
          (compile_pdf_batch C td rp a w fnames).res
              = .error ⟨latex_error_msg out err⟩
          ∧ (compile_pdf_batch C td rp a w fnames).invs.length = k + 1)
       ∧ ∀ out err : List Char, latex_error_msg out err = out ++ err) := by
  intro A C td rp a w fnames k hk hprev
  have hmain := batch_loop_fail C td rp a fnames k 0
      { w with tmp := writeAll w.tmp w.proj } hk (by simpa using hprev)
  simp only [Nat.zero_add] at hmain
  exact ⟨hmain.1, hmain.2, latex_error_msg_eq⟩

/-- Witness for C4: a singleton batch whose only launch attempt fails with
compiler-not-found, instantiated at `k = 0`. -/
theorem c4_witness :
    (compile_pdf_batch (fun _ => LaunchOutcome.notFound) (String.toList "/t")
        true () ⟨[], [], []⟩ [String.toList "main.tex"]).res
        = .error ⟨notFoundMsg⟩
    ∧ (compile_pdf_batch (fun _ => LaunchOutcome.notFound) (String.toList "/t")
        true () ⟨[], [], []⟩ [String.toList "main.tex"]).invs.length = 0 + 1 :=
  (c4_batch_errors Unit (fun _ => .notFound) (String.toList "/t") true ()
      ⟨[], [], []⟩ [String.toList "main.tex"] 0 (by decide)
      (fun j hj => absurd hj (Nat.not_lt_zero j))).1 rfl

/-- Claim C5: an entry whose invocation exits zero but whose expected
output file is absent from the working directory contributes
`CResult.noOutput` (Python `None`) at its position in the result list,
under both output policies (the statement is universal in `return_path`),
and raises nothing itself: the loop's result is the remaining entries'
result with `noOutput` consed on, and `compile_pdf_batch` is exactly this
loop started at position 0 on the staged directory. -/
theorem c5_missing_output :
    ∀ (A : Type) (C : Nat → LaunchOutcome) (td : List Char) (rp : Bool)
      (a : A) (i : Nat) (w : World) (fname : List Char)
      (rest : List (List Char)) (out err : List Char)
      (files : List (List Char × Content)),
      C i = .ran 0 out err files →
      fsExists (writeAll w.tmp files)
          (get_output_fname fname (String.toList "pdf")) = false →
      ((batch_loop C td rp a i w (fname :: rest)).res
          = (batch_loop C td rp a (i + 1)
              { w with tmp := writeAll w.tmp files } rest).res.map
              (fun l => CResult.noOutput :: l)
        ∧ ∀ w' : World,
          compile_pdf_batch C td rp a w' (fname :: rest)
            = batch_loop C td rp a 0
                { w' with tmp := writeAll w'.tmp w'.proj } (fname :: rest)) := by
  intro A C td rp a i w fname rest out err files hC habs
  have hr : (run_pdflatex (C i) (pathJoin td fname) td).2 = .ok files := by
    rw [hC]
    simp [run_pdflatex]
  constructor
  · rw [batch_loop_cons_of_ok C td rp a i w fname rest files hr]
    have hres : entry_result (A := A) rp a (writeAll w.tmp files) fname
        = .noOutput := by
      simp only [entry_result]
      rw [habs]
      simp
    dsimp only
    rw [hres]
  · intro w'
    rfl

/-- Witness for C5: one entry, compiler exits 0 producing nothing, so the
staged (empty) working directory has no `main.pdf`; the theorem applied
there shows the result list is `None` consed on the empty rest. -/
theorem c5_witness :
    (batch_loop (fun _ => LaunchOutcome.ran 0 [] [] []) (String.toList "/t")
        true () 0 ⟨[], [], []⟩ [String.toList "main.tex"]).res
      = (batch_loop (fun _ => LaunchOutcome.ran 0 [] [] []) (String.toList "/t")
          true () (0 + 1) ⟨[], [], []⟩ []).res.map
          (fun l => CResult.noOutput :: l) :=
  (c5_missing_output Unit (fun _ => .ran 0 [] [] []) (String.toList "/t")
      true () 0 ⟨[], [], []⟩ (String.toList "main.tex") [] [] [] []
      rfl (by decide)).1

/-- Claim C7: `compile_pdf` is exactly the singleton batch indexed at 0: a
raised `LatexError` propagates identically; a successful batch on
`[fname]` returns a singleton list whose sole element `compile_pdf`
returns as a single value; the `IndexError` branch of the `[0]` indexing
is unreachable; and the final state and invocation trace agree with the
singleton batch call. -/
theorem c7_compile_pdf_single :
    ∀ (A : Type) (C : Nat → LaunchOutcome) (td : List Char) (rp : Bool)
      (a : A) (w : World) (fname : List Char),
      ((∀ e, (compile_pdf_batch C td rp a w [fname]).res = .error e →
          (compile_pdf C td rp a w fname).2.1 = .err e)
       ∧ (∀ l, (compile_pdf_batch C td rp a w [fname]).res = .ok l →
          ∃ r, l = [r] ∧ (compile_pdf C td rp a w fname).2.1 = .ok r)
       ∧ (compile_pdf C td rp a w fname).2.1 ≠ .indexErr
       ∧ (compile_pdf C td rp a w fname).1
           = (compile_pdf_batch C td rp a w [fname]).w
       ∧ (compile_pdf C td rp a w fname).2.2
           = (compile_pdf_batch C td rp a w [fname]).invs) := by
  intro A C td rp a w fname
  refine ⟨?_, ?_, ?_, rfl, rfl⟩
  · intro e he
    simp only [compile_pdf]
    rw [he]
  · intro l hl
    have hlen := batch_loop_len C td rp a [fname] 0
        { w with tmp := writeAll w.tmp w.proj } l hl
    cases l with
    | nil => simp at hlen
    | cons r rest =>
      cases rest with
      | cons r2 rest2 => simp at hlen
      | nil =>
        refine ⟨r, rfl, ?_⟩
        simp only [compile_pdf]
        rw [hl]
  · cases hres : (compile_pdf_batch C td rp a w [fname]).res with
    | error e =>
      simp only [compile_pdf]
      rw [hres]
      simp
    | ok l =>
      have hlen := batch_loop_len C td rp a [fname] 0
          { w with tmp := writeAll w.tmp w.proj } l hres
      cases l with
      | nil => simp at hlen
      | cons r rest =>
        simp only [compile_pdf]
        rw [hres]
        simp

/-- Witness for C7: the error-propagation part applied to a singleton
batch whose launch fails with compiler-not-found. -/
theorem c7_witness :
    (compile_pdf (fun _ => LaunchOutcome.notFound) (String.toList "/t")
        true () ⟨[], [], []⟩ (String.toList "main.tex")).2.1
      = OneOut.err ⟨notFoundMsg⟩ :=
  (c7_compile_pdf_single Unit (fun _ => .notFound) (String.toList "/t") true ()
      ⟨[], [], []⟩ (String.toList "main.tex")).1 ⟨notFoundMsg⟩ (by decide)

/-- Claim C10: neither `compile_pdf_batch` nor `save_pdf_batch` ever
modifies the in-memory project store: on every execution path (normal
return, missing-output entries, raised error) the final state's `proj`
component equals the initial one — the store is only read when staged
into the working directory. -/
theorem c10_frame :
    (∀ (A : Type) (C : Nat → LaunchOutcome) (td : List Char) (rp : Bool)
        (a : A) (w : World) (fnames : List (List Char)),
      (compile_pdf_batch C td rp a w fnames).w.proj = w.proj)
    ∧ ∀ (C : Nat → LaunchOutcome) (td : List Char) (w : World)
        (fnames : List (List Char)),
      (save_pdf_batch C td w fnames).w.proj = w.proj := by
  have hbatch : ∀ (A : Type) (C : Nat → LaunchOutcome) (td : List Char)
      (rp : Bool) (a : A) (w : World) (fnames : List (List Char)),
      (compile_pdf_batch C td rp a w fnames).w.proj = w.proj := by
    intro A C td rp a w fnames
    exact batch_loop_proj C td rp a fnames 0 _
  refine ⟨hbatch, ?_⟩
  intro C td w fnames
  simp only [save_pdf_batch]
  cases hb : (compile_pdf_batch C td true () w fnames).res with
  | error e =>
    simp only [hb]
    exact hbatch Unit C td true () w fnames
  | ok outs =>
    simp only [hb]
    rw [save_copy_loop_proj]
    exact hbatch Unit C td true () w fnames

/-! ### Claim theorems about the file abstraction and add_file -/

/-- Claim C6: the exactly-one-of argument contracts — `BinaryFile` with
`data`/`fname`, `PlainTextFile` with `text`/`fname`, and
`LatexProject.add_file` with `text`/`data`/`file`/`fname` — raise
`TypeError` synchronously whenever the supplied source count differs from
one, and succeed whenever exactly one source is supplied (with the
external read succeeding for the `fname` source). -/
theorem c6_exactly_one :
    (∀ (os : OsFs) (path : List Char) (data : Option (List Nat))
        (fname : Option (List Char)),
      (if fname.isSome then 1 else 0) + (if data.isSome then 1 else 0) ≠ 1 →
      binaryFile_init os path data fname = .error .typeError)
    ∧ (∀ (os : OsFs) (path : List Char) (d : List Nat),
      binaryFile_init os path (some d) none = .ok ⟨path, d⟩)
    ∧ (∀ (os : OsFs) (path f : List Char) (b : List Nat),
      os.readBytes f = some b →
      binaryFile_init os path none (some f) = .ok ⟨path, b⟩)
    ∧ (∀ (os : OsFs) (path : List Char) (text : Option (List Char))
        (fname : Option (List Char)),
      (if fname.isSome then 1 else 0) + (if text.isSome then 1 else 0) ≠ 1 →
      plainTextFile_init os path text fname = .error .typeError)
    ∧ (∀ (os : OsFs) (path t : List Char),
      plainTextFile_init os path (some t) none = .ok ⟨path, t⟩)
    ∧ (∀ (os : OsFs) (path f t : List Char),
      os.readText f = some t →
      plainTextFile_init os path none (some f) = .ok ⟨path, t⟩)
    ∧ (∀ (os : OsFs) (proj : FS) (path : List Char) (text : Option (List Char))
        (data : Option (List Nat)) (file : Option Content)
        (fname : Option (List Char)),
      (if text.isSome then 1 else 0) + (if data.isSome then 1 else 0)
        + (if file.isSome then 1 else 0) + (if fname.isSome then 1 else 0) ≠ 1 →
      add_file os proj path text data file fname = .error .typeError)
    ∧ (∀ (os : OsFs) (proj : FS) (path t : List Char),
      add_file os proj path (some t) none none none
        = .ok (fsWrite proj path (Content.text t)))
    ∧ (∀ (os : OsFs) (proj : FS) (path : List Char) (d : List Nat),
      add_file os proj path none (some d) none none
        = .ok (fsWrite proj path (Content.bytes d)))
    ∧ (∀ (os : OsFs) (proj : FS) (path : List Char) (c : Content),
      add_file os proj path none none (some c) none
        = .ok (fsWrite proj path c))
    ∧ (∀ (os : OsFs) (proj : FS) (path f t : List Char),
      os.readText f = some t →
      add_file os proj path none none none (some f)
        = .ok (fsWrite proj path (Content.text t))) := by
  refine ⟨?_, ?_, ?_, ?_, ?_, ?_, ?_, ?_, ?_, ?_, ?_⟩
  · intro os path data fname h
    simp [binaryFile_init, h]
  · intro os path d
    simp [binaryFile_init]
  · intro os path f b h
    simp [binaryFile_init, h]
  · intro os path text fname h
    simp [plainTextFile_init, h]
  · intro os path t
    simp [plainTextFile_init]
  · intro os path f t h
    simp [plainTextFile_init, h]
  · intro os proj path text data file fname h
    rw [add_file.eq_def, if_pos h]
  · intro os proj path t
    simp [add_file.eq_def]
  · intro os proj path d
    simp [add_file.eq_def]
  · intro os proj path c
    simp [add_file.eq_def]
  · intro os proj path f t h
    rw [add_file.eq_def]
    simp [h, add_file.eq_def]

/-- Witness for C6: zero supplied sources raise `TypeError`
(`BinaryFile()` and `add_file()` with no content arguments), and one
supplied source succeeds. -/
theorem c6_witness :
    binaryFile_init ⟨fun _ => none, fun _ => none⟩ [] none none
      = .error .typeError
    ∧ add_file ⟨fun _ => none, fun _ => none⟩ [] [] none none none none
      = .error .typeError
    ∧ binaryFile_init ⟨fun _ => none, fun _ => none⟩ [] (some [7]) none
      = .ok ⟨[], [7]⟩ :=
  ⟨c6_exactly_one.1 ⟨fun _ => none, fun _ => none⟩ [] none none (by decide),
   (c6_exactly_one.2.2.2.2.2.2.1) ⟨fun _ => none, fun _ => none⟩ [] [] none
     none none none (by decide),
   c6_exactly_one.2.1 ⟨fun _ => none, fun _ => none⟩ [] [7]⟩

/-- Claim C8: for every generated-LaTeX file and every sink,
`write_content` writes exactly the fixed banner line, then exactly one
blank line, then the current `get_content()` value, with no other
transformation, and `is_text` is always `true`. -/
theorem c8_latex_write_content :
    ∀ (f : LatexFileAbc) (sink : List Char),
      f.write_content sink
        = sink
          ++ (String.toList
                "% This file was automatically generated by python latextools."
              ++ '\n' :: '\n' :: f.get_content)
      ∧ f.is_text = true := by
  intro f sink
  constructor
  · have hb : String.toList
        "% This file was automatically generated by python latextools.\n\n"
        = String.toList
            "% This file was automatically generated by python latextools."
          ++ ['\n', '\n'] := by decide
    simp [LatexFileAbc.write_content, hb, LatexFileAbc.get_content]
  · rfl

/-- Claim C9: `add_file(path, fname=f)` reads the external file in text
mode: the stored content is the decoded text (`Content.text` of the
text-mode read), an undecodable or unreadable file raises instead of
being added, while `data=` stores the raw bytes verbatim
(`Content.bytes`), and the two stored content forms are never equal. -/
theorem c9_add_file_text_mode :
    ∀ (os : OsFs) (proj : FS) (path f : List Char),
      ((∀ t, os.readText f = some t →
          add_file os proj path none none none (some f)
            = .ok (fsWrite proj path (Content.text t)))
       ∧ (os.readText f = none →
          add_file os proj path none none none (some f) = .error .readError)
       ∧ (∀ d : List Nat,
          add_file os proj path none (some d) none none
            = .ok (fsWrite proj path (Content.bytes d)))
       ∧ ∀ (t : List Char) (d : List Nat),
          Content.text t ≠ Content.bytes d) := by
  intro os proj path f
  refine ⟨?_, ?_, ?_, ?_⟩
  · intro t h
    rw [add_file.eq_def]
    simp [h, add_file.eq_def]
  · intro h
    rw [add_file.eq_def]
    simp [h]
  · intro d
    simp [add_file.eq_def]
  · intro t d heq
    exact Content.noConfusion heq

/-- Witness for C9: a decodable external file is stored as its text-mode
read, and an unreadable one raises. -/
theorem c9_witness :
    add_file ⟨fun _ => none, fun _ => some (String.toList "hi")⟩ []
        (String.toList "p.tex") none none none (some (String.toList "f.tex"))
      = .ok (fsWrite [] (String.toList "p.tex")
          (Content.text (String.toList "hi")))
    ∧ add_file ⟨fun _ => none, fun _ => none⟩ []
        (String.toList "p.tex") none none none (some (String.toList "f.tex"))
      = .error .readError :=
  ⟨(c9_add_file_text_mode ⟨fun _ => none, fun _ => some (String.toList "hi")⟩
      [] (String.toList "p.tex") (String.toList "f.tex")).1
      (String.toList "hi") rfl,
   (c9_add_file_text_mode ⟨fun _ => none, fun _ => none⟩
      [] (String.toList "p.tex") (String.toList "f.tex")).2.1 rfl⟩

end Latextools
